import Mathlib

/-!
Shallow embedding of src/librarymanagment.py (Library Management System,
CLI over SQLite).

The store (tables books, members, loans) is modelled as lists of rows plus
the AUTOINCREMENT counters (SQLite AUTOINCREMENT starts at 1 and never
reuses ids).  Dates are ISO "YYYY-MM-DD" strings in the source; both the
SQL string comparison on them and the calendar-day arithmetic of
datetime/timedelta agree with integer day numbers, so dates are embedded
as integers, and each operation takes the clock reading as an explicit
argument.  Counters are Python ints / SQLite INTEGERs, hence Int.

Fidelity notes, from the source:
* PRAGMA foreign_keys = ON is executed only on the connection opened by
  init_db; the pragma is per-connection in SQLite, and every operation
  opens a fresh connection via get_conn without setting it.  Foreign keys
  are therefore NOT enforced during operations, and ON DELETE CASCADE
  never fires: borrow_book inserts a loan without checking the member,
  and delete_book / delete_member never touch the loans table.
* UNIQUE column constraints (books.isbn, members.email) are table
  constraints and are enforced regardless of the pragma; a duplicate
  raises sqlite3.IntegrityError and the transaction rolls back, which is
  embedded as a None result with the store unchanged.  SQL UNIQUE admits
  any number of NULLs.
* SELECT ... WHERE id=? ... fetchone() returns the first matching row in
  rowid order, embedded as List.find? over the insertion-ordered list;
  UPDATE/DELETE ... WHERE id=? act on every matching row, embedded as
  List.map / List.filter.
* Python str.strip() is embedded as pyStrip, dropping leading and
  trailing whitespace characters from the underlying character list (same
  behaviour on the ASCII whitespace relevant here); the Python truthiness
  test `isbn.strip() if isbn else None` maps empty-string input to NULL.
-/

namespace LibraryMS

/-- A row of the books table: id, title, author, isbn (nullable, unique),
copies_total, copies_available, created_at. -/
structure Book where
  id : Nat
  title : String
  author : String
  isbn : Option String
  copies_total : Int
  copies_available : Int
  created_at : Int
deriving Repr, DecidableEq

/-- A row of the members table: id, name, email (nullable, unique), phone
(nullable), joined_at. -/
structure Member where
  id : Nat
  name : String
  email : Option String
  phone : Option String
  joined_at : Int
deriving Repr, DecidableEq

/-- A row of the loans table: id, book_id, member_id, loan_date, due_date,
return_date (nullable). -/
structure Loan where
  id : Nat
  book_id : Nat
  member_id : Nat
  loan_date : Int
  due_date : Int
  return_date : Option Int
deriving Repr, DecidableEq

/-- The whole SQLite store: the three tables in rowid order plus the three
AUTOINCREMENT counters. -/
structure DB where
  books : List Book
  members : List Member
  loans : List Loan
  next_book_id : Nat
  next_member_id : Nat
  next_loan_id : Nat
deriving Repr, DecidableEq

/-- The store right after init_db on a fresh file: all tables empty,
AUTOINCREMENT counters at 1. -/
def DB.empty : DB := ⟨[], [], [], 1, 1, 1⟩

/-- SELECT * FROM books WHERE id=? ... fetchone(). -/
def bookById (db : DB) (book_id : Nat) : Option Book :=
  db.books.find? (fun b => b.id == book_id)

/-- SELECT * FROM members WHERE id=? ... fetchone(). -/
def memberById (db : DB) (member_id : Nat) : Option Member :=
  db.members.find? (fun m => m.id == member_id)

/-- SELECT * FROM loans WHERE id=? ... fetchone(). -/
def loanById (db : DB) (loan_id : Nat) : Option Loan :=
  db.loans.find? (fun l => l.id == loan_id)

/-- Python str.strip(): remove leading and trailing whitespace. -/
def pyStrip (s : String) : String :=
  ⟨((s.data.dropWhile Char.isWhitespace).reverse.dropWhile Char.isWhitespace).reverse⟩

/-- The Python idiom `s.strip() if s else None` applied to a nullable text
field before INSERT: None and the empty string become NULL, anything else
is stored stripped. -/
def stripOpt : Option String → Option String
  | none => none
  | some s => if s = "" then none else some (pyStrip s)

/-- add_book (librarymanagment.py 116-123): strips the fields and inserts
the row with copies_available = copies_total = copies and created_at =
the current date.  There is no validation of title, author or copies; the
only failure is the UNIQUE(isbn) table constraint (IntegrityError,
embedded as none, store unchanged). -/
def add_book (db : DB) (title author : String) (isbn : Option String) (copies : Int)
    (now : Int) : Option (DB × Nat) :=
  let isbnV := stripOpt isbn
  if isbnV.isSome && db.books.any (fun b => b.isbn == isbnV) then
    none
  else
    some ({ db with
            books := db.books ++ [⟨db.next_book_id, pyStrip title, pyStrip author, isbnV,
                                   copies, copies, now⟩],
            next_book_id := db.next_book_id + 1 },
          db.next_book_id)

/-- add_member (librarymanagment.py 154-160): strips the fields and inserts
the row; the only failure is the UNIQUE(email) table constraint. -/
def add_member (db : DB) (name : String) (email phone : Option String)
    (now : Int) : Option (DB × Nat) :=
  let emailV := stripOpt email
  if emailV.isSome && db.members.any (fun m => m.email == emailV) then
    none
  else
    some ({ db with
            members := db.members ++ [⟨db.next_member_id, pyStrip name, emailV,
                                       stripOpt phone, now⟩],
            next_member_id := db.next_member_id + 1 },
          db.next_member_id)

/-- SELECT COUNT(*) FROM loans WHERE book_id=? AND return_date IS NULL,
on a given loans table. -/
def countActiveForBook (loans : List Loan) (book_id : Nat) : Nat :=
  (loans.filter (fun l => l.book_id == book_id && l.return_date.isNone)).length

/-- SELECT COUNT(*) FROM loans WHERE member_id=? AND return_date IS NULL. -/
def countActiveForMember (loans : List Loan) (member_id : Nat) : Nat :=
  (loans.filter (fun l => l.member_id == member_id && l.return_date.isNone)).length

/-- The two reported outcomes of delete_book / delete_member: the active-loan
conflict message, or the unconditional "deleted (if it existed)" message. -/
inductive DeleteOutcome where
  | conflictActiveLoans
  | deletedIfExisted
deriving Repr, DecidableEq

/-- delete_book (librarymanagment.py 137-148): refuses while any unreturned
loan references the book, otherwise deletes the row(s) with that id and
reports "Book deleted (if it existed)." whether or not a row existed.
Foreign keys are off on this connection, so no cascade touches loans. -/
def delete_book (db : DB) (book_id : Nat) : DB × DeleteOutcome :=
  if countActiveForBook db.loans book_id ≠ 0 then
    (db, DeleteOutcome.conflictActiveLoans)
  else
    ({ db with books := db.books.filter (fun b => b.id != book_id) },
     DeleteOutcome.deletedIfExisted)

/-- delete_member (librarymanagment.py 174-185): symmetric to delete_book. -/
def delete_member (db : DB) (member_id : Nat) : DB × DeleteOutcome :=
  if countActiveForMember db.loans member_id ≠ 0 then
    (db, DeleteOutcome.conflictActiveLoans)
  else
    ({ db with members := db.members.filter (fun m => m.id != member_id) },
     DeleteOutcome.deletedIfExisted)

/-- The reported outcomes of borrow_book: "Book not found.",
"No available copies.", or "Loan created. Due on {due}." -/
inductive BorrowOutcome where
  | bookNotFound
  | noAvailableCopies
  | loanCreated (due : Int)
deriving Repr, DecidableEq

/-- borrow_book (librarymanagment.py 191-211): looks the book up ("Book not
found." if absent), requires copies_available > 0 ("No available copies."),
then inserts a loan (loan_date = today, due_date = today + days,
return_date = NULL) and decrements the book's copies_available.  The
member id is never checked (foreign keys are off on this connection).
Returns the new state, the value returned to the caller (the new loan id,
or None on failure) and the printed outcome. -/
def borrow_book (db : DB) (book_id member_id : Nat) (days : Int)
    (now : Int) : DB × Option Nat × BorrowOutcome :=
  match bookById db book_id with
  | none => (db, none, BorrowOutcome.bookNotFound)
  | some book =>
    if book.copies_available ≤ 0 then
      (db, none, BorrowOutcome.noAvailableCopies)
    else
      let due := now + days
      ({ db with
         books := db.books.map (fun b =>
           if b.id == book_id then { b with copies_available := b.copies_available - 1 }
           else b),
         loans := db.loans ++ [⟨db.next_loan_id, book_id, member_id, now, due, none⟩],
         next_loan_id := db.next_loan_id + 1 },
       some db.next_loan_id, BorrowOutcome.loanCreated due)

/-- The reported outcomes of return_book: "Loan not found.",
"Already returned.", "Returned late by N day(s)." or
"Returned on time. Thank you!". -/
inductive ReturnOutcome where
  | loanNotFound
  | alreadyReturned
  | returnedLate (days : Int)
  | returnedOnTime
deriving Repr, DecidableEq

/-- return_book (librarymanagment.py 214-237): looks the loan up ("Loan not
found."), reports "Already returned." if return_date is set, otherwise
stamps return_date = today, increments the referenced book's
copies_available, and reports on-time or days late. -/
def return_book (db : DB) (loan_id : Nat) (now : Int) : DB × ReturnOutcome :=
  match loanById db loan_id with
  | none => (db, ReturnOutcome.loanNotFound)
  | some loan =>
    match loan.return_date with
    | some _ => (db, ReturnOutcome.alreadyReturned)
    | none =>
      ({ db with
         loans := db.loans.map (fun l =>
           if l.id == loan_id then { l with return_date := some now } else l),
         books := db.books.map (fun b =>
           if b.id == loan.book_id then { b with copies_available := b.copies_available + 1 }
           else b) },
       if loan.due_date < now then ReturnOutcome.returnedLate (now - loan.due_date)
       else ReturnOutcome.returnedOnTime)

/-- A row of the list_overdue result set: SELECT l.*, b.title AS book_title,
m.name AS member_name. -/
structure LoanView where
  loan : Loan
  book_title : String
  member_name : String
deriving Repr, DecidableEq

/-- The inner JOIN of a loan with books and members: produces a row only
when both references resolve. -/
def enrich (db : DB) (l : Loan) : Option LoanView :=
  match bookById db l.book_id, memberById db l.member_id with
  | some b, some m => some ⟨l, b.title, m.name⟩
  | _, _ => none

/-- ORDER BY l.due_date, as a relation on result rows. -/
def dueRel (a b : LoanView) : Prop := a.loan.due_date ≤ b.loan.due_date

instance : DecidableRel dueRel := fun a b => Int.decLe a.loan.due_date b.loan.due_date

instance : IsTotal LoanView dueRel := ⟨fun a b => Int.le_total a.loan.due_date b.loan.due_date⟩

instance : IsTrans LoanView dueRel := ⟨fun _ _ _ h h' => le_trans h h'⟩

/-- list_overdue (librarymanagment.py 257-265): the unreturned loans whose
due_date is strictly before today, inner-joined with books and members,
ordered by due_date. -/
def list_overdue (db : DB) (now : Int) : List LoanView :=
  List.insertionSort dueRel
    ((db.loans.filter (fun l => l.return_date.isNone && decide (l.due_date < now))).filterMap
      (enrich db))

/-- The operations of the domain layer, as invoked by the CLI shell; each
carries the clock reading the source would take via today(). -/
inductive Op where
  | addBook (title author : String) (isbn : Option String) (copies : Int) (now : Int)
  | addMember (name : String) (email phone : Option String) (now : Int)
  | borrowBook (book_id member_id : Nat) (days : Int) (now : Int)
  | returnBook (loan_id : Nat) (now : Int)
  | deleteBook (book_id : Nat)
  | deleteMember (member_id : Nat)
deriving Repr, DecidableEq

/-- The state reached after one operation (failed inserts roll back and
leave the store unchanged). -/
def step (db : DB) : Op → DB
  | Op.addBook t a i c now =>
    match add_book db t a i c now with
    | some (db', _) => db'
    | none => db
  | Op.addMember n e p now =>
    match add_member db n e p now with
    | some (db', _) => db'
    | none => db
  | Op.borrowBook b m d now => (borrow_book db b m d now).1
  | Op.returnBook l now => (return_book db l now).1
  | Op.deleteBook b => (delete_book db b).1
  | Op.deleteMember m => (delete_member db m).1

/-- The state reached after a sequence of operations. -/
def run (db : DB) : List Op → DB
  | [] => db
  | op :: ops => run (step db op) ops

/-- The argument restriction under which the copy-count invariant holds:
AddBook must not be called with a negative copy count (the source itself
never validates; its CLI shell enforces a minimum of 1). -/
def opOK : Op → Bool
  | Op.addBook _ _ _ c _ => decide (0 ≤ c)
  | _ => true

/-!  Generic list helpers about keyed rows (lookup by id, keyed UPDATE,
splitting a table at a row with a unique id). -/

theorem find?_map_key {α : Type} (p : α → Bool) (f : α → α)
    (hf : ∀ x, p (f x) = p x) :
    ∀ l : List α, (l.map f).find? p = (l.find? p).map f := by
  intro l
  induction l with
  | nil => rfl
  | cons x xs ih =>
    by_cases hp : p x = true
    · rw [List.map_cons, List.find?_cons_of_pos _ (by rw [hf]; exact hp),
        List.find?_cons_of_pos _ hp, Option.map_some']
    · rw [List.map_cons, List.find?_cons_of_neg _ (by rw [hf]; exact hp),
        List.find?_cons_of_neg _ hp, ih]

theorem map_ite_key_id {α : Type} (key : α → Nat) (upd : α → α) (k : Nat) :
    ∀ l : List α, (∀ x ∈ l, key x ≠ k) →
      l.map (fun x => if key x == k then upd x else x) = l := by
  intro l h
  induction l with
  | nil => rfl
  | cons x xs ih =>
    have hx : (key x == k) = false := by
      simpa using h x (List.mem_cons_self x xs)
    simp only [List.map_cons, hx, Bool.false_eq_true, if_false,
      ih (fun y hy => h y (List.mem_cons_of_mem _ hy))]

theorem split_of_mem_nodup {α : Type} (key : α → Nat) {l : List α} {a : α}
    (ha : a ∈ l) (hnd : (l.map key).Nodup) :
    ∃ l₁ l₂, l = l₁ ++ a :: l₂ ∧
      (∀ x ∈ l₁, key x ≠ key a) ∧ (∀ x ∈ l₂, key x ≠ key a) := by
  obtain ⟨l₁, l₂, rfl⟩ := List.append_of_mem ha
  rw [List.map_append, List.map_cons, List.nodup_append] at hnd
  refine ⟨l₁, l₂, rfl, ?_, ?_⟩
  · intro x hx hkey
    exact hnd.2.2 (List.mem_map_of_mem key hx) (by rw [hkey]; exact List.mem_cons_self _ _)
  · intro x hx hkey
    exact (List.nodup_cons.mp hnd.2.1).1 (by rw [← hkey]; exact List.mem_map_of_mem key hx)

theorem countActiveForBook_append (loans : List Loan) (l : Loan) (bid : Nat) :
    countActiveForBook (loans ++ [l]) bid =
      countActiveForBook loans bid +
        (if l.book_id == bid && l.return_date.isNone then 1 else 0) := by
  simp only [countActiveForBook, List.filter_append, List.length_append]
  by_cases h : (l.book_id == bid && l.return_date.isNone) = true
  · simp [List.filter, h]
  · simp [List.filter, h]

/-- The id of a book is untouched by the borrow-time decrement. -/
theorem dec_id (bid : Nat) (x : Book) :
    ((fun b => if b.id == bid then { b with copies_available := b.copies_available - 1 }
               else b) x).id = x.id := by
  by_cases h : (x.id == bid) = true <;> simp [h]

/-- The id of a book is untouched by the return-time increment. -/
theorem inc_id (bid : Nat) (x : Book) :
    ((fun b => if b.id == bid then { b with copies_available := b.copies_available + 1 }
               else b) x).id = x.id := by
  by_cases h : (x.id == bid) = true <;> simp [h]

/-!  The inductive invariant of the store, strong enough to be preserved by
every operation (with non-negative AddBook counts) and to imply the copy
count bounds of the spec. -/

/-- Reachable-store invariant: copy accounting per book, uniqueness of
ids, unreturned loans reference live books, and AUTOINCREMENT freshness. -/
structure Inv (db : DB) : Prop where
  counts : ∀ b ∈ db.books,
    b.copies_available + (countActiveForBook db.loans b.id : Int) = b.copies_total
  avail_nonneg : ∀ b ∈ db.books, 0 ≤ b.copies_available
  booksNodup : (db.books.map Book.id).Nodup
  loansNodup : (db.loans.map Loan.id).Nodup
  activeRef : ∀ l ∈ db.loans, l.return_date = none → ∃ b ∈ db.books, b.id = l.book_id
  bookFresh : ∀ b ∈ db.books, b.id < db.next_book_id
  loanFresh : ∀ l ∈ db.loans, l.id < db.next_loan_id
  loanBookFresh : ∀ l ∈ db.loans, l.book_id < db.next_book_id

theorem inv_empty : Inv DB.empty := by
  constructor <;> simp [DB.empty]

theorem inv_addMember {db : DB} (hinv : Inv db) (n : String) (e p : Option String)
    (now : Int) : Inv (step db (Op.addMember n e p now)) := by
  cases h : add_member db n e p now with
  | none =>
    simp only [step, h]
    exact hinv
  | some pr =>
    obtain ⟨db', nid⟩ := pr
    simp only [step, h]
    simp only [add_member] at h
    split at h
    · cases h
    · rw [Option.some.injEq, Prod.mk.injEq] at h
      obtain ⟨h1, -⟩ := h
      rw [← h1]
      exact ⟨hinv.counts, hinv.avail_nonneg, hinv.booksNodup, hinv.loansNodup,
        hinv.activeRef, hinv.bookFresh, hinv.loanFresh, hinv.loanBookFresh⟩

theorem inv_deleteMember {db : DB} (hinv : Inv db) (mid : Nat) :
    Inv (step db (Op.deleteMember mid)) := by
  simp only [step, delete_member]
  by_cases hact : countActiveForMember db.loans mid ≠ 0
  · simp only [if_pos hact]
    exact hinv
  · simp only [if_neg hact]
    exact ⟨hinv.counts, hinv.avail_nonneg, hinv.booksNodup, hinv.loansNodup,
      hinv.activeRef, hinv.bookFresh, hinv.loanFresh, hinv.loanBookFresh⟩

theorem inv_deleteBook {db : DB} (hinv : Inv db) (bid : Nat) :
    Inv (step db (Op.deleteBook bid)) := by
  simp only [step, delete_book]
  by_cases hact : countActiveForBook db.loans bid ≠ 0
  · simp only [if_pos hact]
    exact hinv
  · simp only [if_neg hact]
    push_neg at hact
    have hnoact : ∀ l ∈ db.loans, l.return_date = none → l.book_id ≠ bid := by
      intro l hl hret he
      have hmem : l ∈ db.loans.filter (fun l => l.book_id == bid && l.return_date.isNone) := by
        rw [List.mem_filter]
        exact ⟨hl, by simp [he, hret]⟩
      rw [countActiveForBook, List.length_eq_zero] at hact
      rw [hact] at hmem
      cases hmem
    constructor
    · intro b hb
      exact hinv.counts b (List.mem_of_mem_filter hb)
    · intro b hb
      exact hinv.avail_nonneg b (List.mem_of_mem_filter hb)
    · exact hinv.booksNodup.sublist ((List.filter_sublist _).map Book.id)
    · exact hinv.loansNodup
    · intro l hl hret
      obtain ⟨b, hb, hbid⟩ := hinv.activeRef l hl hret
      refine ⟨b, List.mem_filter.mpr ⟨hb, ?_⟩, hbid⟩
      simp only [bne_iff_ne, ne_eq, decide_eq_true_eq]
      rw [hbid]
      exact hnoact l hl hret
    · intro b hb
      exact hinv.bookFresh b (List.mem_of_mem_filter hb)
    · exact hinv.loanFresh
    · exact hinv.loanBookFresh

theorem inv_addBook {db : DB} (hinv : Inv db) (t a : String) (i : Option String)
    {c : Int} (hc : 0 ≤ c) (now : Int) : Inv (step db (Op.addBook t a i c now)) := by
  cases h : add_book db t a i c now with
  | none =>
    simp only [step, h]
    exact hinv
  | some pr =>
    obtain ⟨db', nid⟩ := pr
    simp only [step, h]
    simp only [add_book] at h
    split at h
    · cases h
    · rw [Option.some.injEq, Prod.mk.injEq] at h
      obtain ⟨h1, -⟩ := h
      rw [← h1]
      constructor
      · intro b hb
        rw [List.mem_append] at hb
        cases hb with
        | inl hb => exact hinv.counts b hb
        | inr hb =>
          rw [List.mem_singleton] at hb
          subst hb
          have hzero : countActiveForBook db.loans db.next_book_id = 0 := by
            rw [countActiveForBook, List.length_eq_zero, List.filter_eq_nil_iff]
            intro l hl
            simp [Nat.ne_of_lt (hinv.loanBookFresh l hl)]
          simp [hzero]
      · intro b hb
        rw [List.mem_append] at hb
        cases hb with
        | inl hb => exact hinv.avail_nonneg b hb
        | inr hb =>
          rw [List.mem_singleton] at hb
          subst hb
          exact hc
      · rw [List.map_append]
        refine hinv.booksNodup.append (by simp) ?_
        intro x hx hx1
        rw [List.mem_map] at hx
        obtain ⟨b, hb, rfl⟩ := hx
        rw [List.map_cons, List.map_nil, List.mem_singleton] at hx1
        exact absurd hx1 (Nat.ne_of_lt (hinv.bookFresh b hb))
      · exact hinv.loansNodup
      · intro l hl hret
        obtain ⟨b, hb, hbid⟩ := hinv.activeRef l hl hret
        exact ⟨b, List.mem_append_left _ hb, hbid⟩
      · intro b hb
        rw [List.mem_append] at hb
        cases hb with
        | inl hb => exact Nat.lt_succ_of_lt (hinv.bookFresh b hb)
        | inr hb =>
          rw [List.mem_singleton] at hb
          subst hb
          exact Nat.lt_succ_self _
      · exact hinv.loanFresh
      · intro l hl
        exact Nat.lt_succ_of_lt (hinv.loanBookFresh l hl)

theorem map_keyed_eq {α : Type} {f : α → α} {l : List α}
    (h : ∀ x ∈ l, f x = x) : l.map f = l := by
  rw [List.map_congr_left h, List.map_id']

theorem inv_borrow {db : DB} (hinv : Inv db) (bid mid : Nat) (days now : Int) :
    Inv (step db (Op.borrowBook bid mid days now)) := by
  simp only [step, borrow_book]
  cases hfind : bookById db bid with
  | none => exact hinv
  | some book =>
    by_cases hav : book.copies_available ≤ 0
    · simp only [if_pos hav]
      exact hinv
    · simp only [if_neg hav]
      simp only [bookById] at hfind
      have hmem : book ∈ db.books := List.mem_of_find?_eq_some hfind
      have hpid : book.id = bid := by simpa using List.find?_some hfind
      obtain ⟨B₁, B₂, hsplit, hB₁, hB₂⟩ :=
        split_of_mem_nodup Book.id hmem hinv.booksNodup
      have hB₁' : ∀ x ∈ B₁, x.id ≠ bid := fun x hx => hpid ▸ hB₁ x hx
      have hB₂' : ∀ x ∈ B₂, x.id ≠ bid := fun x hx => hpid ▸ hB₂ x hx
      have hmap : (db.books.map fun b =>
          if b.id == bid then { b with copies_available := b.copies_available - 1 }
          else b) =
          B₁ ++ { book with copies_available := book.copies_available - 1 } :: B₂ := by
        rw [hsplit, List.map_append, List.map_cons,
          map_keyed_eq (fun x hx => by simp [hB₁' x hx]),
          map_keyed_eq (fun x hx => by simp [hB₂' x hx])]
        simp [hpid]
      constructor
      · intro b hb
        rw [hmap] at hb
        simp only [countActiveForBook_append]
        rw [List.mem_append, List.mem_cons] at hb
        rcases hb with hb | hb | hb
        · have hne : (bid == b.id) = false := by
            simp only [beq_eq_false_iff_ne, ne_eq]
            exact fun he => hB₁' b hb he.symm
          simp only [hne, Bool.false_and, Bool.false_eq_true, if_false, Nat.add_zero]
          exact hinv.counts b (hsplit ▸ List.mem_append_left _ hb)
        · subst hb
          have hyes : ((⟨db.next_loan_id, bid, mid, now, now + days, none⟩ : Loan).book_id ==
              ({ book with copies_available := book.copies_available - 1 } : Book).id) = true := by
            simp [hpid]
          have hcnt := hinv.counts book hmem
          simp only [hyes, Option.isNone_none, Bool.and_true, if_true]
          simp only [hpid]
          push_cast
          push_cast at hcnt
          simp only [hpid] at hcnt
          omega
        · have hne : (bid == b.id) = false := by
            simp only [beq_eq_false_iff_ne, ne_eq]
            exact fun he => hB₂' b hb he.symm
          simp only [hne, Bool.false_and, Bool.false_eq_true, if_false, Nat.add_zero]
          exact hinv.counts b
            (hsplit ▸ List.mem_append_right _ (List.mem_cons_of_mem _ hb))
      · intro b hb
        rw [hmap] at hb
        rw [List.mem_append, List.mem_cons] at hb
        rcases hb with hb | hb | hb
        · exact hinv.avail_nonneg b (hsplit ▸ List.mem_append_left _ hb)
        · subst hb
          have := hinv.avail_nonneg book hmem
          simp only
          omega
        · exact hinv.avail_nonneg b
            (hsplit ▸ List.mem_append_right _ (List.mem_cons_of_mem _ hb))
      · rw [List.map_map]
        rw [List.map_congr_left (fun x _ => by
          simp only [Function.comp_apply]
          exact dec_id bid x)]
        exact hinv.booksNodup
      · rw [List.map_append]
        refine hinv.loansNodup.append (by simp) ?_
        intro x hx hx1
        rw [List.mem_map] at hx
        obtain ⟨l, hl, rfl⟩ := hx
        rw [List.map_cons, List.map_nil, List.mem_singleton] at hx1
        exact absurd hx1 (Nat.ne_of_lt (hinv.loanFresh l hl))
      · intro l hl hret
        rw [List.mem_append, List.mem_singleton] at hl
        rcases hl with hl | hl
        · obtain ⟨b, hb, hbid⟩ := hinv.activeRef l hl hret
          refine ⟨_, List.mem_map_of_mem _ hb, ?_⟩
          rw [dec_id bid b]
          exact hbid
        · subst hl
          refine ⟨_, List.mem_map_of_mem _ hmem, ?_⟩
          rw [dec_id bid book]
          exact hpid
      · intro b hb
        rw [List.mem_map] at hb
        obtain ⟨x, hx, rfl⟩ := hb
        rw [dec_id bid x]
        exact hinv.bookFresh x hx
      · intro l hl
        rw [List.mem_append, List.mem_singleton] at hl
        rcases hl with hl | hl
        · exact Nat.lt_succ_of_lt (hinv.loanFresh l hl)
        · subst hl
          exact Nat.lt_succ_self _
      · intro l hl
        rw [List.mem_append, List.mem_singleton] at hl
        rcases hl with hl | hl
        · exact hinv.loanBookFresh l hl
        · subst hl
          exact hpid ▸ hinv.bookFresh book hmem

theorem setRet_id (lid : Nat) (now : Int) (x : Loan) :
    ((fun l => if l.id == lid then { l with return_date := some now } else l) x).id = x.id := by
  by_cases h : (x.id == lid) = true <;> simp [h]

theorem setRet_book_id (lid : Nat) (now : Int) (x : Loan) :
    ((fun l => if l.id == lid then { l with return_date := some now } else l) x).book_id =
      x.book_id := by
  by_cases h : (x.id == lid) = true <;> simp [h]

theorem countActiveForBook_split (L₁ L₂ : List Loan) (x : Loan) (bid : Nat) :
    countActiveForBook (L₁ ++ x :: L₂) bid =
      countActiveForBook L₁ bid +
        (if x.book_id == bid && x.return_date.isNone then 1 else 0) +
      countActiveForBook L₂ bid := by
  simp only [countActiveForBook, List.filter_append, List.filter_cons, List.length_append]
  by_cases h : (x.book_id == bid && x.return_date.isNone) = true
  · simp only [h, if_true, List.length_cons]
    omega
  · rw [Bool.not_eq_true] at h
    simp only [h, Bool.false_eq_true, if_false]
    omega

theorem inv_return {db : DB} (hinv : Inv db) (lid : Nat) (now : Int) :
    Inv (step db (Op.returnBook lid now)) := by
  cases hfind : loanById db lid with
  | none =>
    simp only [step, return_book, hfind]
    exact hinv
  | some loan =>
    cases hret : loan.return_date with
    | some d =>
      simp only [step, return_book, hfind, hret]
      exact hinv
    | none =>
      simp only [step, return_book, hfind, hret]
      simp only [loanById] at hfind
      have hmeml : loan ∈ db.loans := List.mem_of_find?_eq_some hfind
      have hlid : loan.id = lid := by simpa using List.find?_some hfind
      obtain ⟨book, hmemb, hbid⟩ := hinv.activeRef loan hmeml hret
      obtain ⟨L₁, L₂, hLsplit, hL₁, hL₂⟩ :=
        split_of_mem_nodup Loan.id hmeml hinv.loansNodup
      obtain ⟨B₁, B₂, hBsplit, hB₁, hB₂⟩ :=
        split_of_mem_nodup Book.id hmemb hinv.booksNodup
      have hL₁' : ∀ x ∈ L₁, x.id ≠ lid := fun x hx => hlid ▸ hL₁ x hx
      have hL₂' : ∀ x ∈ L₂, x.id ≠ lid := fun x hx => hlid ▸ hL₂ x hx
      have hB₁' : ∀ x ∈ B₁, x.id ≠ loan.book_id := fun x hx => hbid ▸ hB₁ x hx
      have hB₂' : ∀ x ∈ B₂, x.id ≠ loan.book_id := fun x hx => hbid ▸ hB₂ x hx
      have hmapL : (db.loans.map fun l =>
          if l.id == lid then { l with return_date := some now } else l) =
          L₁ ++ { loan with return_date := some now } :: L₂ := by
        rw [hLsplit, List.map_append, List.map_cons,
          map_keyed_eq (fun x hx => by simp [hL₁' x hx]),
          map_keyed_eq (fun x hx => by simp [hL₂' x hx])]
        simp [hlid]
      have hmapB : (db.books.map fun b =>
          if b.id == loan.book_id then { b with copies_available := b.copies_available + 1 }
          else b) =
          B₁ ++ { book with copies_available := book.copies_available + 1 } :: B₂ := by
        rw [hBsplit, List.map_append, List.map_cons,
          map_keyed_eq (fun x hx => by simp [hB₁' x hx]),
          map_keyed_eq (fun x hx => by simp [hB₂' x hx])]
        simp [hbid]
      have hcount_old : ∀ bid' : Nat, countActiveForBook db.loans bid' =
          countActiveForBook L₁ bid' +
            (if loan.book_id == bid' then 1 else 0) +
          countActiveForBook L₂ bid' := by
        intro bid'
        rw [hLsplit, countActiveForBook_split]
        simp [hret]
      have hcount_new : ∀ bid' : Nat,
          countActiveForBook (L₁ ++ { loan with return_date := some now } :: L₂) bid' =
            countActiveForBook L₁ bid' + countActiveForBook L₂ bid' := by
        intro bid'
        rw [countActiveForBook_split]
        simp
      constructor
      · intro b hb
        rw [hmapB] at hb
        rw [hmapL, hcount_new b.id]
        rw [List.mem_append, List.mem_cons] at hb
        have hIcnt : ∀ b' : Book, b' ∈ db.books →
            b'.copies_available +
              ((countActiveForBook L₁ b'.id : Int) +
                (if loan.book_id == b'.id then 1 else 0) +
               countActiveForBook L₂ b'.id) = b'.copies_total := by
          intro b' hb'
          have := hinv.counts b' hb'
          rw [hcount_old b'.id] at this
          push_cast at this ⊢
          split at this <;> split <;> simp_all
        rcases hb with hb | hb | hb
        · have hne : (loan.book_id == b.id) = false := by
            simp only [beq_eq_false_iff_ne, ne_eq]
            exact fun he => hB₁' b hb he.symm
          have := hIcnt b (hBsplit ▸ List.mem_append_left _ hb)
          rw [hne] at this
          push_cast at this ⊢
          omega
        · subst hb
          have hyes : (loan.book_id == ({ book with
              copies_available := book.copies_available + 1 } : Book).id) = true := by
            simp [hbid]
          have := hIcnt book hmemb
          simp only [hbid] at this ⊢
          simp only [beq_self_eq_true, if_true] at this
          push_cast at this ⊢
          omega
        · have hne : (loan.book_id == b.id) = false := by
            simp only [beq_eq_false_iff_ne, ne_eq]
            exact fun he => hB₂' b hb he.symm
          have := hIcnt b (hBsplit ▸ List.mem_append_right _ (List.mem_cons_of_mem _ hb))
          rw [hne] at this
          push_cast at this ⊢
          omega
      · intro b hb
        rw [hmapB] at hb
        rw [List.mem_append, List.mem_cons] at hb
        rcases hb with hb | hb | hb
        · exact hinv.avail_nonneg b (hBsplit ▸ List.mem_append_left _ hb)
        · subst hb
          have := hinv.avail_nonneg book hmemb
          simp only
          omega
        · exact hinv.avail_nonneg b
            (hBsplit ▸ List.mem_append_right _ (List.mem_cons_of_mem _ hb))
      · rw [List.map_map]
        rw [List.map_congr_left (fun x _ => by
          simp only [Function.comp_apply]
          exact inc_id loan.book_id x)]
        exact hinv.booksNodup
      · rw [List.map_map]
        rw [List.map_congr_left (fun x _ => by
          simp only [Function.comp_apply]
          exact setRet_id lid now x)]
        exact hinv.loansNodup
      · intro l' hl' hret'
        rw [List.mem_map] at hl'
        obtain ⟨l, hl, rfl⟩ := hl'
        by_cases hcase : (l.id == lid) = true
        · exfalso
          simp only [hcase, if_true] at hret'
          cases hret'
        · rw [Bool.not_eq_true] at hcase
          simp only [hcase, Bool.false_eq_true, if_false] at hret' ⊢
          obtain ⟨b, hb, hbid'⟩ := hinv.activeRef l hl hret'
          refine ⟨_, List.mem_map_of_mem _ hb, ?_⟩
          rw [inc_id loan.book_id b]
          exact hbid'
      · intro b hb
        rw [List.mem_map] at hb
        obtain ⟨x, hx, rfl⟩ := hb
        rw [inc_id loan.book_id x]
        exact hinv.bookFresh x hx
      · intro l hl
        rw [List.mem_map] at hl
        obtain ⟨x, hx, rfl⟩ := hl
        rw [setRet_id lid now x]
        exact hinv.loanFresh x hx
      · intro l hl
        rw [List.mem_map] at hl
        obtain ⟨x, hx, rfl⟩ := hl
        rw [setRet_book_id lid now x]
        exact hinv.loanBookFresh x hx

theorem inv_step {db : DB} (hinv : Inv db) {op : Op} (hok : opOK op = true) :
    Inv (step db op) := by
  cases op with
  | addBook t a i c now => exact inv_addBook hinv t a i (by simpa [opOK] using hok) now
  | addMember n e p now => exact inv_addMember hinv n e p now
  | borrowBook b m d now => exact inv_borrow hinv b m d now
  | returnBook l now => exact inv_return hinv l now
  | deleteBook b => exact inv_deleteBook hinv b
  | deleteMember m => exact inv_deleteMember hinv m

theorem inv_run {db : DB} (hinv : Inv db) (ops : List Op)
    (h : ∀ op ∈ ops, opOK op = true) : Inv (run db ops) := by
  induction ops generalizing db with
  | nil => exact hinv
  | cons op ops ih =>
    exact ih (inv_step hinv (h op (List.mem_cons_self _ _)))
      (fun o ho => h o (List.mem_cons_of_mem _ ho))

/-- Claim C1 (amended): after every sequence of operations starting from the
fresh store in which every AddBook call passes a non-negative copy count,
every book row satisfies 0 ≤ copies_available ≤ copies_total.  (The
amendment is forced: add_book performs no validation, so an AddBook with a
negative count creates a row violating the lower bound, see the
counterexample.) -/
theorem c1_copies_invariant (ops : List Op) (h : ∀ op ∈ ops, opOK op = true) :
    ∀ b ∈ (run DB.empty ops).books,
      0 ≤ b.copies_available ∧ b.copies_available ≤ b.copies_total := by
  have hinv := inv_run inv_empty ops h
  intro b hb
  refine ⟨hinv.avail_nonneg b hb, ?_⟩
  have hcnt := hinv.counts b hb
  have hnn : (0 : Int) ≤ (countActiveForBook (run DB.empty ops).loans b.id : Int) :=
    Int.natCast_nonneg _
  omega

/-- Witness for c1_copies_invariant at a concrete operation sequence. -/
theorem c1_copies_invariant_witness :
    (∀ op ∈ [Op.addBook "Dune" "Frank Herbert" none 2 0, Op.borrowBook 1 1 7 0],
      opOK op = true) ∧
    ∀ b ∈ (run DB.empty
        [Op.addBook "Dune" "Frank Herbert" none 2 0, Op.borrowBook 1 1 7 0]).books,
      0 ≤ b.copies_available ∧ b.copies_available ≤ b.copies_total :=
  ⟨by decide, c1_copies_invariant
    [Op.addBook "Dune" "Frank Herbert" none 2 0, Op.borrowBook 1 1 7 0] (by decide)⟩

/-- Claim C1, as stated, is false: AddBook is never validated, so adding a
book with a negative copy count yields a row with copies_available < 0. -/
theorem c1_counterexample :
    ∃ b ∈ (run DB.empty [Op.addBook "T" "A" none (-1) 0]).books,
      ¬(0 ≤ b.copies_available ∧ b.copies_available ≤ b.copies_total) := by
  decide

/-- Claim C2: borrow_book checks its preconditions in order with distinct
outcomes and no state change on failure; on success it returns the new
loan id, reports the due date loan_date + days, inserts the loan row with
loan_date = today, due_date = today + days, return_date = NULL, and
decrements exactly that book's copies_available by exactly 1. -/
theorem c2_borrow_preconditions (db : DB) (bid mid : Nat) (days now : Int) :
    (bookById db bid = none →
      borrow_book db bid mid days now = (db, none, BorrowOutcome.bookNotFound)) ∧
    (∀ b, bookById db bid = some b → b.copies_available ≤ 0 →
      borrow_book db bid mid days now = (db, none, BorrowOutcome.noAvailableCopies)) ∧
    (∀ b, bookById db bid = some b → 0 < b.copies_available →
      (borrow_book db bid mid days now).2.1 = some db.next_loan_id ∧
      (borrow_book db bid mid days now).2.2 = BorrowOutcome.loanCreated (now + days) ∧
      (⟨db.next_loan_id, bid, mid, now, now + days, none⟩ : Loan) ∈
        (borrow_book db bid mid days now).1.loans ∧
      bookById (borrow_book db bid mid days now).1 bid =
        some { b with copies_available := b.copies_available - 1 }) := by
  refine ⟨?_, ?_, ?_⟩
  · intro h
    simp only [borrow_book, h]
  · intro b hb hle
    simp only [borrow_book, hb, if_pos hle]
  · intro b hb hpos
    have hle : ¬(b.copies_available ≤ 0) := by omega
    have hb' := hb
    simp only [bookById] at hb'
    have hbeq : b.id = bid := by simpa using List.find?_some hb'
    refine ⟨?_, ?_, ?_, ?_⟩
    · simp only [borrow_book, hb, if_neg hle]
    · simp only [borrow_book, hb, if_neg hle]
    · simp only [borrow_book, hb, if_neg hle]
      exact List.mem_append_right _ (List.mem_singleton.mpr rfl)
    · have hstate : (borrow_book db bid mid days now).1.books =
          db.books.map (fun b =>
            if b.id == bid then { b with copies_available := b.copies_available - 1 }
            else b) := by
        simp only [borrow_book, hb, if_neg hle]
      rw [bookById, hstate]
      rw [find?_map_key (fun b : Book => b.id == bid)
          (fun b : Book =>
            if b.id == bid then { b with copies_available := b.copies_available - 1 }
            else b)
          (fun x => by by_cases h : (x.id == bid) = true <;> simp [h]),
        hb', Option.map_some']
      simp [hbeq]

/-- Witness for c2_borrow_preconditions: the success branch on a concrete
one-book store. -/
theorem c2_borrow_preconditions_witness :
    (borrow_book (⟨[⟨1, "t", "a", none, 2, 2, 0⟩], [], [], 2, 1, 1⟩ : DB) 1 7 14 5).2.1 =
      some 1 ∧
    (borrow_book (⟨[⟨1, "t", "a", none, 2, 2, 0⟩], [], [], 2, 1, 1⟩ : DB) 1 7 14 5).2.2 =
      BorrowOutcome.loanCreated (5 + 14) ∧
    (⟨1, 1, 7, 5, 5 + 14, none⟩ : Loan) ∈
      (borrow_book (⟨[⟨1, "t", "a", none, 2, 2, 0⟩], [], [], 2, 1, 1⟩ : DB) 1 7 14 5).1.loans ∧
    bookById (borrow_book (⟨[⟨1, "t", "a", none, 2, 2, 0⟩], [], [], 2, 1, 1⟩ : DB) 1 7 14 5).1 1 =
      some ⟨1, "t", "a", none, 2, 1, 0⟩ :=
  (c2_borrow_preconditions ⟨[⟨1, "t", "a", none, 2, 2, 0⟩], [], [], 2, 1, 1⟩ 1 7 14 5).2.2
    ⟨1, "t", "a", none, 2, 2, 0⟩ (by decide) (by decide)

/-- Claim C3: the spec is right and the code is wrong.  The schema declares
member_id REFERENCES members(id) and init_db issues PRAGMA foreign_keys =
ON, but the pragma is per-connection and every operation opens a fresh
connection, so borrow_book inserts a loan whose member does not exist:
on a one-book store with no members, borrowing for member 99 succeeds and
creates an orphaned loan row. -/
theorem c3_orphan_member_loan :
    memberById (⟨[⟨1, "t", "a", none, 1, 1, 0⟩], [], [], 2, 1, 1⟩ : DB) 99 = none ∧
    (borrow_book (⟨[⟨1, "t", "a", none, 1, 1, 0⟩], [], [], 2, 1, 1⟩ : DB) 1 99 14 0).2.1 =
      some 1 ∧
    (⟨1, 1, 99, 0, 14, none⟩ : Loan) ∈
      (borrow_book (⟨[⟨1, "t", "a", none, 1, 1, 0⟩], [], [], 2, 1, 1⟩ : DB) 1 99 14 0).1.loans ∧
    memberById
      (borrow_book (⟨[⟨1, "t", "a", none, 1, 1, 0⟩], [], [], 2, 1, 1⟩ : DB) 1 99 14 0).1 99 =
      none := by
  decide

/-- Claim C4, as stated, is false: add_book performs no validation, so the
call with empty title, empty author and copies_total = 0 succeeds and
inserts a row (the store state changes). -/
theorem c4_counterexample :
    add_book DB.empty "" "" none 0 0 =
      some (⟨[⟨1, "", "", none, 0, 0, 0⟩], [], [], 2, 1, 1⟩, 1) := by
  decide

/-- Claim C4 (amended): AddBook never raises a ValidationError; for every
title, author and copy count (with no ISBN, so no uniqueness conflict is
possible) it succeeds and inserts the row with the stripped fields and
copies_available = copies_total = copies, even when title or author is
empty or copies < 1. -/
theorem c4_no_validation (db : DB) (title author : String) (copies now : Int) :
    add_book db title author none copies now =
      some ({ db with
              books := db.books ++ [⟨db.next_book_id, pyStrip title, pyStrip author, none,
                                     copies, copies, now⟩],
              next_book_id := db.next_book_id + 1 }, db.next_book_id) := by
  simp [add_book, stripOpt]

/-- Claim C5: on a book with an available copy, a successful borrow_book
followed immediately by return_book on the loan it created restores the
book's copies_available to its pre-borrow value — in fact it restores the
whole books table.  The freshness hypothesis on the new loan id holds in
every reachable store (AUTOINCREMENT never reuses ids, see Inv.loanFresh). -/
theorem c5_borrow_return_roundtrip (db : DB) (b : Book) (bid mid : Nat)
    (days t₁ t₂ : Int) (hb : bookById db bid = some b) (hpos : 0 < b.copies_available)
    (hfresh : ∀ l ∈ db.loans, l.id ≠ db.next_loan_id) :
    ∃ lid, (borrow_book db bid mid days t₁).2.1 = some lid ∧
      (return_book (borrow_book db bid mid days t₁).1 lid t₂).1.books = db.books ∧
      bookById (return_book (borrow_book db bid mid days t₁).1 lid t₂).1 bid = some b := by
  have hle : ¬(b.copies_available ≤ 0) := by omega
  have hid : (borrow_book db bid mid days t₁).2.1 = some db.next_loan_id := by
    simp only [borrow_book, hb, if_neg hle]
  have hloan : loanById (borrow_book db bid mid days t₁).1 db.next_loan_id =
      some ⟨db.next_loan_id, bid, mid, t₁, t₁ + days, none⟩ := by
    simp only [borrow_book, hb, if_neg hle, loanById]
    rw [List.find?_append]
    have h1 : db.loans.find? (fun l => l.id == db.next_loan_id) = none := by
      rw [List.find?_eq_none]
      intro l hl
      simp [hfresh l hl]
    rw [h1]
    simp
  have hbooks : (return_book (borrow_book db bid mid days t₁).1 db.next_loan_id t₂).1.books =
      db.books := by
    simp only [return_book, hloan]
    simp only [borrow_book, hb, if_neg hle]
    rw [List.map_map]
    rw [map_keyed_eq (fun x _ => by
      by_cases h : (x.id == bid) = true <;>
        simp [h, Function.comp, sub_add_cancel])]
  refine ⟨db.next_loan_id, hid, hbooks, ?_⟩
  have hb2 := hb
  simp only [bookById] at hb2 ⊢
  rw [hbooks]
  exact hb2

/-- Witness for c5_borrow_return_roundtrip on a concrete one-book store. -/
theorem c5_borrow_return_roundtrip_witness :
    ∃ lid, (borrow_book (⟨[⟨1, "t", "a", none, 3, 2, 0⟩], [], [], 2, 1, 1⟩ : DB)
        1 1 14 0).2.1 = some lid ∧
      (return_book (borrow_book (⟨[⟨1, "t", "a", none, 3, 2, 0⟩], [], [], 2, 1, 1⟩ : DB)
          1 1 14 0).1 lid 20).1.books = (⟨[⟨1, "t", "a", none, 3, 2, 0⟩], [], [], 2, 1, 1⟩ : DB).books ∧
      bookById (return_book (borrow_book (⟨[⟨1, "t", "a", none, 3, 2, 0⟩], [], [], 2, 1, 1⟩ : DB)
          1 1 14 0).1 lid 20).1 1 = some ⟨1, "t", "a", none, 3, 2, 0⟩ :=
  c5_borrow_return_roundtrip ⟨[⟨1, "t", "a", none, 3, 2, 0⟩], [], [], 2, 1, 1⟩
    ⟨1, "t", "a", none, 3, 2, 0⟩ 1 1 14 0 20 (by decide) (by decide) (by decide)

/-- Claim C6: the first return_book on an outstanding loan stamps its
return_date; the second and every later call on the same loan id leaves
the whole store unchanged and reports "Already returned." -/
theorem c6_return_idempotent (db : DB) (l : Loan) (lid : Nat) (t₁ : Int)
    (hl : loanById db lid = some l) (hout : l.return_date = none) :
    loanById (return_book db lid t₁).1 lid = some { l with return_date := some t₁ } ∧
    ∀ t₂, return_book (return_book db lid t₁).1 lid t₂ =
      ((return_book db lid t₁).1, ReturnOutcome.alreadyReturned) := by
  have hl' := hl
  simp only [loanById] at hl'
  have hlid : l.id = lid := by simpa using List.find?_some hl'
  have h1 : loanById (return_book db lid t₁).1 lid =
      some { l with return_date := some t₁ } := by
    simp only [return_book, loanById, hl', hout]
    rw [find?_map_key (fun x : Loan => x.id == lid)
        (fun x : Loan => if x.id == lid then { x with return_date := some t₁ } else x)
        (fun x => by by_cases h : (x.id == lid) = true <;> simp [h])]
    rw [hl', Option.map_some']
    simp [hlid]
  refine ⟨h1, ?_⟩
  intro t₂
  generalize hS : (return_book db lid t₁).1 = S at h1 ⊢
  simp only [return_book, h1]

/-- Witness for c6_return_idempotent on a concrete store with one
outstanding loan. -/
theorem c6_return_idempotent_witness :
    loanById (return_book (⟨[⟨1, "t", "a", none, 1, 0, 0⟩], [],
        [⟨1, 1, 1, 0, 14, none⟩], 2, 1, 2⟩ : DB) 1 5).1 1 =
      some ⟨1, 1, 1, 0, 14, some 5⟩ ∧
    ∀ t₂, return_book (return_book (⟨[⟨1, "t", "a", none, 1, 0, 0⟩], [],
        [⟨1, 1, 1, 0, 14, none⟩], 2, 1, 2⟩ : DB) 1 5).1 1 t₂ =
      ((return_book (⟨[⟨1, "t", "a", none, 1, 0, 0⟩], [],
        [⟨1, 1, 1, 0, 14, none⟩], 2, 1, 2⟩ : DB) 1 5).1, ReturnOutcome.alreadyReturned) :=
  c6_return_idempotent ⟨[⟨1, "t", "a", none, 1, 0, 0⟩], [], [⟨1, 1, 1, 0, 14, none⟩], 2, 1, 2⟩
    ⟨1, 1, 1, 0, 14, none⟩ 1 5 (by decide) (by decide)

theorem countActiveForBook_eq_zero {loans : List Loan} {bid : Nat}
    (hno : ∀ l ∈ loans, l.book_id = bid → l.return_date ≠ none) :
    countActiveForBook loans bid = 0 := by
  rw [countActiveForBook, List.length_eq_zero, List.filter_eq_nil_iff]
  intro l hl
  by_cases hb : l.book_id = bid
  · simp [hb, hno l hl hb]
  · simp [hb]

theorem countActiveForMember_eq_zero {loans : List Loan} {mid : Nat}
    (hno : ∀ l ∈ loans, l.member_id = mid → l.return_date ≠ none) :
    countActiveForMember loans mid = 0 := by
  rw [countActiveForMember, List.length_eq_zero, List.filter_eq_nil_iff]
  intro l hl
  by_cases hm : l.member_id = mid
  · simp [hm, hno l hl hm]
  · simp [hm]

/-- Claim C7: delete_book / delete_member refuse (state unchanged, conflict
reported) while an unreturned loan references the target; with no such
loan they remove the row and report the unconditional "deleted (if it
existed)" message; and deleting an absent id (with no unreturned loan
referencing it) leaves the store unchanged and reports the same deleted
message — there is no NotFound outcome. -/
theorem c7_delete_guard (db : DB) (bid mid : Nat) :
    ((∃ l ∈ db.loans, l.book_id = bid ∧ l.return_date = none) →
      delete_book db bid = (db, DeleteOutcome.conflictActiveLoans)) ∧
    ((∀ l ∈ db.loans, l.book_id = bid → l.return_date ≠ none) →
      (delete_book db bid).2 = DeleteOutcome.deletedIfExisted ∧
      bookById (delete_book db bid).1 bid = none ∧
      (delete_book db bid).1.loans = db.loans) ∧
    (bookById db bid = none →
      (∀ l ∈ db.loans, l.book_id = bid → l.return_date ≠ none) →
      delete_book db bid = (db, DeleteOutcome.deletedIfExisted)) ∧
    ((∃ l ∈ db.loans, l.member_id = mid ∧ l.return_date = none) →
      delete_member db mid = (db, DeleteOutcome.conflictActiveLoans)) ∧
    ((∀ l ∈ db.loans, l.member_id = mid → l.return_date ≠ none) →
      (delete_member db mid).2 = DeleteOutcome.deletedIfExisted ∧
      memberById (delete_member db mid).1 mid = none ∧
      (delete_member db mid).1.loans = db.loans) ∧
    (memberById db mid = none →
      (∀ l ∈ db.loans, l.member_id = mid → l.return_date ≠ none) →
      delete_member db mid = (db, DeleteOutcome.deletedIfExisted)) := by
  refine ⟨?_, ?_, ?_, ?_, ?_, ?_⟩
  · rintro ⟨loan, hl, hlb, hlr⟩
    have hcnt : countActiveForBook db.loans bid ≠ 0 := by
      have hmem : loan ∈ db.loans.filter
          (fun x => x.book_id == bid && x.return_date.isNone) :=
        List.mem_filter.mpr ⟨hl, by simp [hlb, hlr]⟩
      rw [countActiveForBook]
      intro h0
      rw [List.length_eq_zero] at h0
      rw [h0] at hmem
      exact absurd hmem (List.not_mem_nil _)
    simp only [delete_book, if_pos hcnt]
  · intro hno
    have hcnt : ¬(countActiveForBook db.loans bid ≠ 0) := by
      simp [countActiveForBook_eq_zero hno]
    refine ⟨by simp only [delete_book, if_neg hcnt], ?_, by simp only [delete_book, if_neg hcnt]⟩
    simp only [delete_book, if_neg hcnt, bookById]
    rw [List.find?_eq_none]
    intro x hx
    rw [List.mem_filter] at hx
    simpa using hx.2
  · intro hmiss hno
    have hcnt : ¬(countActiveForBook db.loans bid ≠ 0) := by
      simp [countActiveForBook_eq_zero hno]
    simp only [delete_book, if_neg hcnt]
    have hfil : db.books.filter (fun b => b.id != bid) = db.books := by
      rw [List.filter_eq_self]
      intro b hb
      simp only [bookById] at hmiss
      rw [List.find?_eq_none] at hmiss
      simpa using hmiss b hb
    rw [hfil]
  · rintro ⟨loan, hl, hlm, hlr⟩
    have hcnt : countActiveForMember db.loans mid ≠ 0 := by
      have hmem : loan ∈ db.loans.filter
          (fun x => x.member_id == mid && x.return_date.isNone) :=
        List.mem_filter.mpr ⟨hl, by simp [hlm, hlr]⟩
      rw [countActiveForMember]
      intro h0
      rw [List.length_eq_zero] at h0
      rw [h0] at hmem
      exact absurd hmem (List.not_mem_nil _)
    simp only [delete_member, if_pos hcnt]
  · intro hno
    have hcnt : ¬(countActiveForMember db.loans mid ≠ 0) := by
      simp [countActiveForMember_eq_zero hno]
    refine ⟨by simp only [delete_member, if_neg hcnt], ?_,
      by simp only [delete_member, if_neg hcnt]⟩
    simp only [delete_member, if_neg hcnt, memberById]
    rw [List.find?_eq_none]
    intro x hx
    rw [List.mem_filter] at hx
    simpa using hx.2
  · intro hmiss hno
    have hcnt : ¬(countActiveForMember db.loans mid ≠ 0) := by
      simp [countActiveForMember_eq_zero hno]
    simp only [delete_member, if_neg hcnt]
    have hfil : db.members.filter (fun m => m.id != mid) = db.members := by
      rw [List.filter_eq_self]
      intro m hm
      simp only [memberById] at hmiss
      rw [List.find?_eq_none] at hmiss
      simpa using hmiss m hm
    rw [hfil]

/-- Witness for c7_delete_guard: the conflict branch, the successful-delete
branch and the absent-id branch on concrete stores. -/
theorem c7_delete_guard_witness :
    delete_book (⟨[⟨1, "t", "a", none, 1, 0, 0⟩], [], [⟨1, 1, 1, 0, 14, none⟩], 2, 1, 2⟩ : DB) 1 =
      (⟨[⟨1, "t", "a", none, 1, 0, 0⟩], [], [⟨1, 1, 1, 0, 14, none⟩], 2, 1, 2⟩,
       DeleteOutcome.conflictActiveLoans) ∧
    ((delete_book (⟨[⟨1, "t", "a", none, 1, 1, 0⟩], [], [⟨1, 1, 1, 0, 14, some 3⟩],
        2, 1, 2⟩ : DB) 1).2 = DeleteOutcome.deletedIfExisted ∧
     bookById (delete_book (⟨[⟨1, "t", "a", none, 1, 1, 0⟩], [], [⟨1, 1, 1, 0, 14, some 3⟩],
        2, 1, 2⟩ : DB) 1).1 1 = none ∧
     (delete_book (⟨[⟨1, "t", "a", none, 1, 1, 0⟩], [], [⟨1, 1, 1, 0, 14, some 3⟩],
        2, 1, 2⟩ : DB) 1).1.loans =
       (⟨[⟨1, "t", "a", none, 1, 1, 0⟩], [], [⟨1, 1, 1, 0, 14, some 3⟩], 2, 1, 2⟩ : DB).loans) ∧
    delete_book (⟨[], [], [], 1, 1, 1⟩ : DB) 7 = (⟨[], [], [], 1, 1, 1⟩, DeleteOutcome.deletedIfExisted) ∧
    delete_member (⟨[], [⟨1, "n", none, none, 0⟩], [], 1, 2, 1⟩ : DB) 9 =
      (⟨[], [⟨1, "n", none, none, 0⟩], [], 1, 2, 1⟩, DeleteOutcome.deletedIfExisted) :=
  ⟨(c7_delete_guard ⟨[⟨1, "t", "a", none, 1, 0, 0⟩], [], [⟨1, 1, 1, 0, 14, none⟩], 2, 1, 2⟩
      1 1).1 ⟨⟨1, 1, 1, 0, 14, none⟩, by decide, rfl, rfl⟩,
   (c7_delete_guard ⟨[⟨1, "t", "a", none, 1, 1, 0⟩], [], [⟨1, 1, 1, 0, 14, some 3⟩], 2, 1, 2⟩
      1 1).2.1 (by decide),
   (c7_delete_guard ⟨[], [], [], 1, 1, 1⟩ 7 1).2.2.1 (by decide) (by decide),
   (c7_delete_guard ⟨[], [⟨1, "n", none, none, 0⟩], [], 1, 2, 1⟩ 1 9).2.2.2.2.2
     (by decide) (by decide)⟩

/-- Claim C8 (amended): list_overdue is sorted by due_date ascending and a
result row appears exactly for the loans with return_date NULL and
due_date strictly before today whose book and member references resolve
to existing rows (the SQL inner join silently drops loans whose
references do not resolve, see the counterexample); each returned row
carries the referenced book's title and the referenced member's name. -/
theorem c8_list_overdue (db : DB) (now : Int) :
    List.Pairwise (fun a b : LoanView => a.loan.due_date ≤ b.loan.due_date)
      (list_overdue db now) ∧
    (∀ r : LoanView, r ∈ list_overdue db now ↔
      ∃ l ∈ db.loans, l.return_date = none ∧ l.due_date < now ∧ enrich db l = some r) ∧
    (∀ r ∈ list_overdue db now, r.loan ∈ db.loans ∧
      (∃ b ∈ db.books, b.id = r.loan.book_id ∧ b.title = r.book_title) ∧
      (∃ m ∈ db.members, m.id = r.loan.member_id ∧ m.name = r.member_name)) := by
  have hmemiff : ∀ r : LoanView, r ∈ list_overdue db now ↔
      ∃ l ∈ db.loans, l.return_date = none ∧ l.due_date < now ∧ enrich db l = some r := by
    intro r
    simp only [list_overdue, List.mem_insertionSort, List.mem_filterMap, List.mem_filter,
      Bool.and_eq_true, Option.isNone_iff_eq_none, decide_eq_true_eq]
    constructor
    · rintro ⟨l, ⟨hl, hrd, hdd⟩, he⟩
      exact ⟨l, hl, hrd, hdd, he⟩
    · rintro ⟨l, hl, hrd, hdd, he⟩
      exact ⟨l, ⟨hl, hrd, hdd⟩, he⟩
  refine ⟨?_, hmemiff, ?_⟩
  · have hs := List.sorted_insertionSort dueRel
      ((db.loans.filter (fun l => l.return_date.isNone && decide (l.due_date < now))).filterMap
        (enrich db))
    simp only [list_overdue]
    exact hs.imp (fun h => h)
  · intro r hr
    obtain ⟨l, hl, hrd, hdd, he⟩ := (hmemiff r).mp hr
    simp only [enrich] at he
    split at he
    · rename_i b m heqb heqm
      rw [Option.some.injEq] at he
      subst he
      have heqb' : db.books.find? (fun x => x.id == l.book_id) = some b := by
        simpa [bookById] using heqb
      have heqm' : db.members.find? (fun x => x.id == l.member_id) = some m := by
        simpa [memberById] using heqm
      refine ⟨hl, ⟨b, List.mem_of_find?_eq_some heqb', ?_, rfl⟩,
        ⟨m, List.mem_of_find?_eq_some heqm', ?_, rfl⟩⟩
      · simpa using List.find?_some heqb'
      · simpa using List.find?_some heqm'
    · cases he

/-- Claim C8, as stated, is false: an outstanding overdue loan whose member
reference does not resolve (such loans are reachable through borrow_book,
see c3_orphan_member_loan) is silently dropped by the inner join, so
list_overdue does not return every loan with return_date NULL and
due_date before today. -/
theorem c8_counterexample :
    list_overdue
        (⟨[⟨1, "t", "a", none, 1, 0, 0⟩], [], [⟨1, 1, 99, 0, 3, none⟩], 2, 1, 2⟩ : DB) 5 = [] ∧
    (⟨1, 1, 99, 0, 3, none⟩ : Loan) ∈
      (⟨[⟨1, "t", "a", none, 1, 0, 0⟩], [], [⟨1, 1, 99, 0, 3, none⟩], 2, 1, 2⟩ : DB).loans ∧
    (⟨1, 1, 99, 0, 3, none⟩ : Loan).return_date = none ∧
    (⟨1, 1, 99, 0, 3, none⟩ : Loan).due_date < 5 := by
  decide

/-- Claim C9: no operation deletes a Loan row — every loan present before
any single operation survives it with id and both references intact — and
delete_book / delete_member leave the loans table literally unchanged, so
loans that reference a deleted book or member remain after the deletion
(no cascade fires: the foreign-key pragma is never active on operation
connections). -/
theorem c9_loans_never_deleted (db : DB) (op : Op) (bid mid : Nat) :
    (∀ l ∈ db.loans, ∃ l' ∈ (step db op).loans,
      l'.id = l.id ∧ l'.book_id = l.book_id ∧ l'.member_id = l.member_id) ∧
    (delete_book db bid).1.loans = db.loans ∧
    (delete_member db mid).1.loans = db.loans := by
  refine ⟨?_, ?_, ?_⟩
  · intro l hl
    cases op with
    | addBook t a i c now =>
      cases h : add_book db t a i c now with
      | none =>
        simp only [step, h]
        exact ⟨l, hl, rfl, rfl, rfl⟩
      | some pr =>
        obtain ⟨db', nid⟩ := pr
        simp only [step, h]
        simp only [add_book] at h
        split at h
        · cases h
        · rw [Option.some.injEq, Prod.mk.injEq] at h
          obtain ⟨h1, -⟩ := h
          rw [← h1]
          exact ⟨l, hl, rfl, rfl, rfl⟩
    | addMember n e p now =>
      cases h : add_member db n e p now with
      | none =>
        simp only [step, h]
        exact ⟨l, hl, rfl, rfl, rfl⟩
      | some pr =>
        obtain ⟨db', nid⟩ := pr
        simp only [step, h]
        simp only [add_member] at h
        split at h
        · cases h
        · rw [Option.some.injEq, Prod.mk.injEq] at h
          obtain ⟨h1, -⟩ := h
          rw [← h1]
          exact ⟨l, hl, rfl, rfl, rfl⟩
    | borrowBook b m d now =>
      cases hf : bookById db b with
      | none =>
        simp only [step, borrow_book, hf]
        exact ⟨l, hl, rfl, rfl, rfl⟩
      | some book =>
        by_cases hav : book.copies_available ≤ 0
        · simp only [step, borrow_book, hf, if_pos hav]
          exact ⟨l, hl, rfl, rfl, rfl⟩
        · simp only [step, borrow_book, hf, if_neg hav]
          exact ⟨l, List.mem_append_left _ hl, rfl, rfl, rfl⟩
    | returnBook lid now =>
      cases hf : loanById db lid with
      | none =>
        simp only [step, return_book, hf]
        exact ⟨l, hl, rfl, rfl, rfl⟩
      | some loan =>
        cases hret : loan.return_date with
        | some d =>
          simp only [step, return_book, hf, hret]
          exact ⟨l, hl, rfl, rfl, rfl⟩
        | none =>
          simp only [step, return_book, hf, hret]
          refine ⟨_, List.mem_map_of_mem _ hl,
            setRet_id lid now l, setRet_book_id lid now l, ?_⟩
          by_cases h : (l.id == lid) = true <;> simp [h]
    | deleteBook b =>
      by_cases h : countActiveForBook db.loans b ≠ 0
      · simp only [step, delete_book, if_pos h]
        exact ⟨l, hl, rfl, rfl, rfl⟩
      · simp only [step, delete_book, if_neg h]
        exact ⟨l, hl, rfl, rfl, rfl⟩
    | deleteMember m =>
      by_cases h : countActiveForMember db.loans m ≠ 0
      · simp only [step, delete_member, if_pos h]
        exact ⟨l, hl, rfl, rfl, rfl⟩
      · simp only [step, delete_member, if_neg h]
        exact ⟨l, hl, rfl, rfl, rfl⟩
  · by_cases h : countActiveForBook db.loans bid ≠ 0
    · simp only [delete_book, if_pos h]
    · simp only [delete_book, if_neg h]
  · by_cases h : countActiveForMember db.loans mid ≠ 0
    · simp only [delete_member, if_pos h]
    · simp only [delete_member, if_neg h]

/-- Witness for c9_loans_never_deleted: after deleting a member, the
returned loan that referenced the member is still in the loans table. -/
theorem c9_loans_never_deleted_witness :
    ∃ l' ∈ (step (⟨[⟨1, "t", "a", none, 1, 1, 0⟩], [⟨1, "n", none, none, 0⟩],
        [⟨1, 1, 1, 0, 14, some 3⟩], 2, 2, 2⟩ : DB) (Op.deleteMember 1)).loans,
      l'.id = 1 ∧ l'.book_id = 1 ∧ l'.member_id = 1 :=
  (c9_loans_never_deleted ⟨[⟨1, "t", "a", none, 1, 1, 0⟩], [⟨1, "n", none, none, 0⟩],
      [⟨1, 1, 1, 0, 14, some 3⟩], 2, 2, 2⟩ (Op.deleteMember 1) 1 1).1
    ⟨1, 1, 1, 0, 14, some 3⟩ (by decide)

/-- Claim C10: every text field of AddBook and AddMember is stored with
leading and trailing whitespace stripped (nullable fields through the
strip-or-NULL idiom), and a whitespace-only title or author is accepted
and stored as the empty string rather than rejected. -/
theorem c10_fields_stripped (db : DB) (t a : String) (i : Option String)
    (c now : Int) (n : String) (e p : Option String) :
    (∀ db' bid, add_book db t a i c now = some (db', bid) →
      ∃ bk ∈ db'.books, bk.id = bid ∧ bk.title = pyStrip t ∧ bk.author = pyStrip a ∧
        bk.isbn = stripOpt i) ∧
    (∀ db' mid, add_member db n e p now = some (db', mid) →
      ∃ mem ∈ db'.members, mem.id = mid ∧ mem.name = pyStrip n ∧
        mem.email = stripOpt e ∧ mem.phone = stripOpt p) ∧
    (∀ s : String, s ≠ "" → stripOpt (some s) = some (pyStrip s)) ∧
    ((add_book db "   " "   " none c now).isSome = true ∧
     ∀ db' bid, add_book db "   " "   " none c now = some (db', bid) →
       ∃ bk ∈ db'.books, bk.id = bid ∧ bk.title = "" ∧ bk.author = "") := by
  refine ⟨?_, ?_, ?_, ?_, ?_⟩
  · intro db' bid h
    simp only [add_book] at h
    split at h
    · cases h
    · rw [Option.some.injEq, Prod.mk.injEq] at h
      obtain ⟨h1, h2⟩ := h
      rw [← h1]
      exact ⟨_, List.mem_append_right _ (List.mem_singleton.mpr rfl),
        by rw [← h2], rfl, rfl, rfl⟩
  · intro db' mid h
    simp only [add_member] at h
    split at h
    · cases h
    · rw [Option.some.injEq, Prod.mk.injEq] at h
      obtain ⟨h1, h2⟩ := h
      rw [← h1]
      exact ⟨_, List.mem_append_right _ (List.mem_singleton.mpr rfl),
        by rw [← h2], rfl, rfl, rfl⟩
  · intro s hs
    simp [stripOpt, hs]
  · simp [add_book, stripOpt]
  · intro db' bid h
    simp only [add_book, stripOpt] at h
    simp only [Option.isSome_none, Bool.false_and, Bool.false_eq_true, if_false,
      Option.some.injEq, Prod.mk.injEq] at h
    obtain ⟨h1, h2⟩ := h
    rw [← h1]
    exact ⟨_, List.mem_append_right _ (List.mem_singleton.mpr rfl),
      by rw [← h2], (by decide : pyStrip "   " = ""), (by decide : pyStrip "   " = "")⟩

/-- Witness for c10_fields_stripped: adding a book with padded fields on
the empty store strips all three text fields. -/
theorem c10_fields_stripped_witness :
    ∃ bk ∈ (⟨[⟨1, "x", "y", some "i", 1, 1, 0⟩], [], [], 2, 1, 1⟩ : DB).books,
      bk.id = 1 ∧ bk.title = pyStrip " x " ∧ bk.author = pyStrip " y " ∧
      bk.isbn = stripOpt (some " i ") :=
  (c10_fields_stripped DB.empty " x " " y " (some " i ") 1 0 "" none none).1
    ⟨[⟨1, "x", "y", some "i", 1, 1, 0⟩], [], [], 2, 1, 1⟩ 1 (by decide)

end LibraryMS
